import Mathlib

/-!
Verification development for the OpenImageIO `imagebufalgo_util.h` core:
the region splitter / parallel executor (`parallel_image`), the type
dispatch macros (`OIIO_DISPATCH_TYPES`, `OIIO_DISPATCH_TYPES2`,
`OIIO_DISPATCH_COMMON_TYPES`, `OIIO_DISPATCH_COMMON_TYPES2`,
`OIIO_DISPATCH_COMMON_TYPES3_HELP2`), the type promotion rule
(`type_merge`) and the preparation routine (`IBAprep`).

The embedding is shallow: the C++ control flow of `parallel_image` is
modelled as a pure function producing the schedule of callable
invocations, each invocation being the band ROI together with a flag
telling whether the band is handed to a freshly spawned worker thread
(`true`) or run synchronously in the calling thread (`false`), listed in
the order the loop produces them.  Machine `int` arithmetic is modelled
with `Int` (no overflow is reachable in the claims considered) and the
unsigned `imagesize_t` pixel count with `Nat`.
-/

set_option linter.unusedVariables false

namespace OIIO

/-- Region of interest, from the OpenImageIO `ROI` value type: six integer
bounds (begin inclusive, end exclusive) per spatial axis plus a channel
range. -/
structure ROI where
  xbegin : Int
  xend : Int
  ybegin : Int
  yend : Int
  zbegin : Int
  zend : Int
  chbegin : Int
  chend : Int
deriving DecidableEq, Repr

def ROI.width (r : ROI) : Int := r.xend - r.xbegin

def ROI.height (r : ROI) : Int := r.yend - r.ybegin

def ROI.depth (r : ROI) : Int := r.zend - r.zbegin

def ROI.nchannels (r : ROI) : Int := r.chend - r.chbegin

/-- Pixel count `imagesize_t(width())*height()*depth()`: an unsigned
product of the three spatial extents.  For the valid ROIs the claims are
about (begin at most end on every axis) `Int.toNat` agrees with the C++
cast. -/
def ROI.npixels (r : ROI) : Nat := r.width.toNat * r.height.toNat * r.depth.toNat

/-- Membership of an integer pixel coordinate in the spatial box of a ROI. -/
def ROI.containsPixel (r : ROI) (x y z : Int) : Prop :=
  r.xbegin ≤ x ∧ x < r.xend ∧ r.ybegin ≤ y ∧ y < r.yend ∧ r.zbegin ≤ z ∧ z < r.zend

instance (r : ROI) (x y z : Int) : Decidable (r.containsPixel x y z) := by
  unfold ROI.containsPixel; infer_instance

/-- The `SplitDir` enumeration of `namespace ImageBufAlgo`. -/
inductive SplitDir where
  | Split_X
  | Split_Y
  | Split_Z
  | Split_Biggest
deriving DecidableEq, Repr

/-- The default value of the `splitdir` parameter of `parallel_image`
(its C++ declaration reads `SplitDir splitdir=Split_Y`). -/
def parallel_image_default_splitdir : SplitDir := SplitDir.Split_Y

/-- Resolution of `nthreads`: `if (nthreads <= 0) OIIO::getattribute
("threads", nthreads);` — a non-positive request is replaced by the
process-wide "threads" attribute, passed here explicitly as `attr`. -/
def resolveThreads (attr T : Int) : Int := if T ≤ 0 then attr else T

/-- The 16384-pixel work-density cap:
`nthreads = std::min (nthreads, 1 + int(roi.npixels() / size_t(16384)))`. -/
def capThreads (roi : ROI) (n : Int) : Int := min n (1 + (roi.npixels : Int) / 16384)

/-- Thread count after resolution and the pixel-density cap (the value of
the local `nthreads` at the `if (nthreads <= 1)` test). -/
def nthreads1 (attr : Int) (roi : ROI) (T : Int) : Int :=
  capThreads roi (resolveThreads attr T)

/-- Split-axis resolution: `if (splitdir >= Split_Biggest) splitdir =
roi.width() > roi.height() ? Split_X : Split_Y;`.  With the four-valued
enumeration, `splitdir >= Split_Biggest` holds exactly for
`Split_Biggest`. -/
def splitAxis (roi : ROI) (d : SplitDir) : SplitDir :=
  match d with
  | SplitDir.Split_Biggest => if roi.width > roi.height then SplitDir.Split_X else SplitDir.Split_Y
  | _ => d

/-- Lower bound of the ROI along a (resolved) split axis, from the
`minmax` array indexing.  `Split_Biggest` never reaches this point; its
value here is arbitrary. -/
def axisBegin (roi : ROI) : SplitDir → Int
  | SplitDir.Split_X => roi.xbegin
  | SplitDir.Split_Y => roi.ybegin
  | SplitDir.Split_Z => roi.zbegin
  | SplitDir.Split_Biggest => roi.ybegin

/-- Upper bound of the ROI along a (resolved) split axis. -/
def axisEnd (roi : ROI) : SplitDir → Int
  | SplitDir.Split_X => roi.xend
  | SplitDir.Split_Y => roi.yend
  | SplitDir.Split_Z => roi.zend
  | SplitDir.Split_Biggest => roi.yend

/-- `splitlen = roi_end - roi_begin` for the resolved split axis. -/
def splitLen (roi : ROI) (d : SplitDir) : Int :=
  axisEnd roi (splitAxis roi d) - axisBegin roi (splitAxis roi d)

/-- Thread count after the additional cap by the split-axis extent:
`nthreads = std::min (nthreads, splitlen)`. -/
def nthreads2 (attr : Int) (roi : ROI) (T : Int) (d : SplitDir) : Int :=
  min (nthreads1 attr roi T) (splitLen roi d)

/-- `blocksize = std::max (1, (splitlen + nthreads - 1) / nthreads)`. -/
def blockSize (attr : Int) (roi : ROI) (T : Int) (d : SplitDir) : Int :=
  max 1 ((splitLen roi d + nthreads2 attr roi T d - 1) / nthreads2 attr roi T d)

/-- Overwriting the resolved split axis's begin/end of a ROI, as the loop
body does with `roi.ybegin = ...; roi.yend = ...` (and likewise for x/z).
All other fields are untouched.  `Split_Biggest` is unreachable here. -/
def withAxis (roi : ROI) (d : SplitDir) (b e : Int) : ROI :=
  match d with
  | SplitDir.Split_X => { roi with xbegin := b, xend := e }
  | SplitDir.Split_Y => { roi with ybegin := b, yend := e }
  | SplitDir.Split_Z => { roi with zbegin := b, zend := e }
  | SplitDir.Split_Biggest => { roi with ybegin := b, yend := e }

/-- The i-th band ROI produced by the splitting loop:
`roi.ybegin = roi_begin + i * blocksize; roi.yend = std::min (roi.ybegin +
blocksize, roi_end);` with all other fields kept from the original ROI. -/
def bandROI (attr : Int) (roi : ROI) (T : Int) (d : SplitDir) (i : Nat) : ROI :=
  withAxis roi (splitAxis roi d)
    (axisBegin roi (splitAxis roi d) + (i : Int) * blockSize attr roi T d)
    (min (axisBegin roi (splitAxis roi d) + (i : Int) * blockSize attr roi T d
            + blockSize attr roi T d)
         (axisEnd roi (splitAxis roi d)))

/-- Whether the i-th band is handed to a spawned worker thread
(`i < nthreads-1`, the `threads.add_thread (new OIIO::thread (f, roi))`
branch) rather than run in the calling thread. -/
def bandFlag (attr : Int) (roi : ROI) (T : Int) (d : SplitDir) (i : Nat) : Bool :=
  decide ((i : Int) < nthreads2 attr roi T d - 1)

/-- Shallow embedding of `parallel_image` (imagebufalgo_util.h, lines
90-142): the list of invocations of the callable `f`, in order, each as
the band ROI paired with `true` when the invocation runs on a spawned
worker thread and `false` when it runs synchronously in the calling
thread.  The loop's `break` when `roi.ybegin >= roi.yend` is the `none`
case of the `filterMap`: because the band starts increase by `blocksize ≥ 1`
per iteration, every iteration after the first exhausted one is also
exhausted, so filtering and breaking agree. -/
def parallel_image (attr : Int) (roi : ROI) (T : Int) (d : SplitDir) : List (ROI × Bool) :=
  if nthreads1 attr roi T ≤ 1 then
    [(roi, false)]
  else
    (List.range (nthreads2 attr roi T d).toNat).filterMap (fun (i : Nat) =>
      let b := axisBegin roi (splitAxis roi d) + (i : Int) * blockSize attr roi T d
      let e := min (b + blockSize attr roi T d) (axisEnd roi (splitAxis roi d))
      if b < e then some (bandROI attr roi T d i, bandFlag attr roi T d i) else none)

/-- The number of bands the loop actually emits: `ceil(splitlen / blocksize)`. -/
def numBands (attr : Int) (roi : ROI) (T : Int) (d : SplitDir) : Nat :=
  ((splitLen roi d + blockSize attr roi T d - 1) / blockSize attr roi T d).toNat

/-- The thread count `parallel_image` works with: 1 on the single-threaded
early-return path, otherwise the value of the local `nthreads` used to
compute `blocksize` (after both caps). -/
def usedThreads (attr : Int) (roi : ROI) (T : Int) (d : SplitDir) : Int :=
  if nthreads1 attr roi T ≤ 1 then 1 else nthreads2 attr roi T d

/-- Fields of two ROIs other than the given split axis's begin/end (the
other two spatial axes and the channel range) agree. -/
def sameOffAxis (a b : ROI) : SplitDir → Prop
  | SplitDir.Split_X =>
      a.ybegin = b.ybegin ∧ a.yend = b.yend ∧ a.zbegin = b.zbegin ∧ a.zend = b.zend ∧
      a.chbegin = b.chbegin ∧ a.chend = b.chend
  | SplitDir.Split_Y =>
      a.xbegin = b.xbegin ∧ a.xend = b.xend ∧ a.zbegin = b.zbegin ∧ a.zend = b.zend ∧
      a.chbegin = b.chbegin ∧ a.chend = b.chend
  | SplitDir.Split_Z =>
      a.xbegin = b.xbegin ∧ a.xend = b.xend ∧ a.ybegin = b.ybegin ∧ a.yend = b.yend ∧
      a.chbegin = b.chbegin ∧ a.chend = b.chend
  | SplitDir.Split_Biggest => True

/-- The coordinate of a pixel along a (resolved) split axis. -/
def axisCoord (d : SplitDir) (x y z : Int) : Int :=
  match d with
  | SplitDir.Split_X => x
  | SplitDir.Split_Y => y
  | SplitDir.Split_Z => z
  | SplitDir.Split_Biggest => y

/-- The part of `containsPixel` that does not involve the split axis. -/
def offAxisContains (r : ROI) (d : SplitDir) (x y z : Int) : Prop :=
  match d with
  | SplitDir.Split_X => r.ybegin ≤ y ∧ y < r.yend ∧ r.zbegin ≤ z ∧ z < r.zend
  | SplitDir.Split_Y => r.xbegin ≤ x ∧ x < r.xend ∧ r.zbegin ≤ z ∧ z < r.zend
  | SplitDir.Split_Z => r.xbegin ≤ x ∧ x < r.xend ∧ r.ybegin ≤ y ∧ y < r.yend
  | SplitDir.Split_Biggest => True

/-! Arithmetic facts about the ceiling division used for `blocksize`. -/

lemma lt_ceil_iff (i s bs : Int) (hbs : 0 < bs) : i < (s + bs - 1) / bs ↔ i * bs < s := by
  rw [Int.lt_iff_add_one_le, Int.le_ediv_iff_mul_le hbs, add_one_mul]
  constructor <;> intro h <;> linarith

lemma le_mul_ceil (s n : Int) (hn : 0 < n) : s ≤ n * ((s + n - 1) / n) := by
  have h1 := Int.ediv_add_emod (s + n - 1) n
  have h2 := Int.emod_nonneg (s + n - 1) (ne_of_gt hn)
  have h3 := Int.emod_lt_of_pos (s + n - 1) hn
  linarith

lemma one_le_ceil (s bs : Int) (hbs : 0 < bs) (hs : 1 ≤ s) : 1 ≤ (s + bs - 1) / bs := by
  have h := (lt_ceil_iff 0 s bs hbs).mpr (by rw [zero_mul]; omega)
  omega

lemma toNat_pos_int {a : Int} (h : 0 < a.toNat) : 1 ≤ a := by
  by_contra hc
  push_neg at hc
  rw [Int.toNat_of_nonpos (by omega)] at h
  omega

/-! Facts available on the multi-threaded path (`nthreads > 1` after the
pixel-density cap). -/

lemma npixels_ge (attr : Int) (roi : ROI) (T : Int) (h : 1 < nthreads1 attr roi T) :
    16384 ≤ roi.npixels := by
  unfold nthreads1 capThreads at h
  have h2 : (1 : Int) < 1 + (roi.npixels : Int) / 16384 :=
    lt_of_lt_of_le h (min_le_right _ _)
  have h3 : (1 : Int) ≤ (roi.npixels : Int) / 16384 := by omega
  have h4 := (Int.le_ediv_iff_mul_le (by norm_num : (0:Int) < 16384)).mp h3
  have h5 : (16384 : Int) ≤ (roi.npixels : Int) := by linarith
  exact_mod_cast h5

lemma extents_pos (attr : Int) (roi : ROI) (T : Int) (h : 1 < nthreads1 attr roi T) :
    1 ≤ roi.width ∧ 1 ≤ roi.height ∧ 1 ≤ roi.depth := by
  have hp := npixels_ge attr roi T h
  unfold ROI.npixels at hp
  have h0 : 0 < roi.width.toNat * roi.height.toNat * roi.depth.toNat :=
    lt_of_lt_of_le (by norm_num) hp
  refine ⟨toNat_pos_int ?_, toNat_pos_int ?_, toNat_pos_int ?_⟩
  · rcases Nat.eq_zero_or_pos roi.width.toNat with hw | hw
    · simp [hw] at h0
    · exact hw
  · rcases Nat.eq_zero_or_pos roi.height.toNat with hw | hw
    · simp [hw] at h0
    · exact hw
  · rcases Nat.eq_zero_or_pos roi.depth.toNat with hw | hw
    · simp [hw] at h0
    · exact hw

lemma splitAxis_ne_biggest (roi : ROI) (d : SplitDir) :
    splitAxis roi d ≠ SplitDir.Split_Biggest := by
  cases d
  · simp [splitAxis]
  · simp [splitAxis]
  · simp [splitAxis]
  · unfold splitAxis
    split <;> split_ifs <;> simp

lemma splitLen_pos (attr : Int) (roi : ROI) (T : Int) (d : SplitDir)
    (h : 1 < nthreads1 attr roi T) : 1 ≤ splitLen roi d := by
  obtain ⟨hw, hh, hdep⟩ := extents_pos attr roi T h
  unfold ROI.width at hw
  unfold ROI.height at hh
  unfold ROI.depth at hdep
  unfold splitLen
  rcases hsd : splitAxis roi d with _ | _ | _ | _
  · simp only [axisBegin, axisEnd]; omega
  · simp only [axisBegin, axisEnd]; omega
  · simp only [axisBegin, axisEnd]; omega
  · exact absurd hsd (splitAxis_ne_biggest roi d)

lemma nthreads2_pos (attr : Int) (roi : ROI) (T : Int) (d : SplitDir)
    (h : 1 < nthreads1 attr roi T) : 1 ≤ nthreads2 attr roi T d :=
  le_min (by omega) (splitLen_pos attr roi T d h)

lemma blockSize_pos (attr : Int) (roi : ROI) (T : Int) (d : SplitDir) :
    0 < blockSize attr roi T d :=
  lt_of_lt_of_le one_pos (le_max_left _ _)

lemma blockSize_eq (attr : Int) (roi : ROI) (T : Int) (d : SplitDir)
    (h : 1 < nthreads1 attr roi T) :
    blockSize attr roi T d
      = (splitLen roi d + nthreads2 attr roi T d - 1) / nthreads2 attr roi T d :=
  max_eq_right (one_le_ceil _ _ (by have := nthreads2_pos attr roi T d h; omega)
    (splitLen_pos attr roi T d h))

lemma splitLen_le_mul (attr : Int) (roi : ROI) (T : Int) (d : SplitDir)
    (h : 1 < nthreads1 attr roi T) :
    splitLen roi d ≤ nthreads2 attr roi T d * blockSize attr roi T d := by
  rw [blockSize_eq attr roi T d h]
  exact le_mul_ceil _ _ (by have := nthreads2_pos attr roi T d h; omega)

lemma numBands_le (attr : Int) (roi : ROI) (T : Int) (d : SplitDir)
    (h : 1 < nthreads1 attr roi T) :
    (numBands attr roi T d : Int) ≤ nthreads2 attr roi T d := by
  have hbs := blockSize_pos attr roi T d
  have hceil : 1 ≤ (splitLen roi d + blockSize attr roi T d - 1) / blockSize attr roi T d :=
    one_le_ceil _ _ hbs (splitLen_pos attr roi T d h)
  have hle := splitLen_le_mul attr roi T d h
  unfold numBands
  rw [Int.toNat_of_nonneg (by omega)]
  by_contra hc
  push_neg at hc
  have := (lt_ceil_iff _ _ _ hbs).mp hc
  linarith

lemma numBands_pos (attr : Int) (roi : ROI) (T : Int) (d : SplitDir)
    (h : 1 < nthreads1 attr roi T) : 1 ≤ numBands attr roi T d := by
  have := one_le_ceil (splitLen roi d) (blockSize attr roi T d)
    (blockSize_pos attr roi T d) (splitLen_pos attr roi T d h)
  unfold numBands
  omega

/-! Reducing the loop-with-break `filterMap` to a `map` over the emitted
band indices. -/

lemma filterMap_range_all {α : Type} (n : Nat) (g : Nat → α) (f : Nat → Option α)
    (hf : ∀ i, i < n → f i = some (g i)) :
    (List.range n).filterMap f = (List.range n).map g := by
  induction n with
  | zero => simp
  | succ n ih =>
    rw [List.range_succ, List.filterMap_append, List.map_append,
        ih (fun i hi => hf i (Nat.lt_succ_of_lt hi))]
    simp [hf n (Nat.lt_succ_self n)]

lemma filterMap_range_prefix {α : Type} (n m : Nat) (g : Nat → α) (f : Nat → Option α)
    (hm : m ≤ n) (hf : ∀ i, f i = if i < m then some (g i) else none) :
    (List.range n).filterMap f = (List.range m).map g := by
  induction n with
  | zero =>
    have hm0 : m = 0 := Nat.le_zero.mp hm
    subst hm0
    simp
  | succ n ih =>
    rcases Nat.lt_or_ge n m with hnm | hnm
    · have hm' : m = n + 1 := Nat.le_antisymm hm hnm
      subst hm'
      exact filterMap_range_all (n + 1) g f (fun i hi => by rw [hf i, if_pos hi])
    · rw [List.range_succ, List.filterMap_append, ih hnm]
      have hnone : f n = none := by rw [hf n, if_neg (by omega)]
      simp [hnone]

lemma band_cond_iff (attr : Int) (roi : ROI) (T : Int) (d : SplitDir)
    (h : 1 < nthreads1 attr roi T) (i : Nat) :
    (axisBegin roi (splitAxis roi d) + (i : Int) * blockSize attr roi T d
        < min (axisBegin roi (splitAxis roi d) + (i : Int) * blockSize attr roi T d
                 + blockSize attr roi T d)
              (axisEnd roi (splitAxis roi d)))
      ↔ i < numBands attr roi T d := by
  have hbs := blockSize_pos attr roi T d
  rw [lt_min_iff]
  constructor
  · rintro ⟨h1, h2⟩
    have h3 : (i : Int) * blockSize attr roi T d < splitLen roi d := by
      unfold splitLen; linarith
    have h4 := (lt_ceil_iff _ _ _ hbs).mpr h3
    unfold numBands
    omega
  · intro h1
    have h4 : (i : Int)
        < (splitLen roi d + blockSize attr roi T d - 1) / blockSize attr roi T d := by
      unfold numBands at h1
      omega
    have h3 := (lt_ceil_iff _ _ _ hbs).mp h4
    constructor
    · linarith
    · unfold splitLen at h3; linarith

lemma parallel_image_eq_map (attr : Int) (roi : ROI) (T : Int) (d : SplitDir)
    (h : 1 < nthreads1 attr roi T) :
    parallel_image attr roi T d =
      (List.range (numBands attr roi T d)).map
        (fun i => (bandROI attr roi T d i, bandFlag attr roi T d i)) := by
  unfold parallel_image
  rw [if_neg (by omega)]
  apply filterMap_range_prefix
  · have h1 := numBands_le attr roi T d h
    have h2 := nthreads2_pos attr roi T d h
    omega
  · intro i
    dsimp only
    by_cases hc : i < numBands attr roi T d
    · rw [if_pos ((band_cond_iff attr roi T d h i).mpr hc), if_pos hc]
    · rw [if_neg (fun hlt => hc ((band_cond_iff attr roi T d h i).mp hlt)), if_neg hc]

lemma containsPixel_withAxis (roi : ROI) (d' : SplitDir) (hd : d' ≠ SplitDir.Split_Biggest)
    (b e x y z : Int) :
    (withAxis roi d' b e).containsPixel x y z ↔
      (offAxisContains roi d' x y z ∧ b ≤ axisCoord d' x y z ∧ axisCoord d' x y z < e) := by
  cases d'
  · simp only [withAxis, ROI.containsPixel, offAxisContains, axisCoord]; tauto
  · simp only [withAxis, ROI.containsPixel, offAxisContains, axisCoord]; tauto
  · simp only [withAxis, ROI.containsPixel, offAxisContains, axisCoord]; tauto
  · exact absurd rfl hd

lemma containsPixel_eq_axis (roi : ROI) (d' : SplitDir) (hd : d' ≠ SplitDir.Split_Biggest)
    (x y z : Int) :
    roi.containsPixel x y z ↔
      (offAxisContains roi d' x y z ∧ axisBegin roi d' ≤ axisCoord d' x y z ∧
        axisCoord d' x y z < axisEnd roi d') := by
  cases d'
  · simp only [ROI.containsPixel, offAxisContains, axisCoord, axisBegin, axisEnd]; tauto
  · simp only [ROI.containsPixel, offAxisContains, axisCoord, axisBegin, axisEnd]; tauto
  · simp only [ROI.containsPixel, offAxisContains, axisCoord, axisBegin, axisEnd]; tauto
  · exact absurd rfl hd

lemma sameOffAxis_withAxis (roi : ROI) (d' : SplitDir) (b e : Int) :
    sameOffAxis (withAxis roi d' b e) roi d' := by
  cases d' <;> simp [withAxis, sameOffAxis]

lemma parallel_image_eq_single (attr : Int) (roi : ROI) (T : Int) (d : SplitDir)
    (h : nthreads1 attr roi T ≤ 1) :
    parallel_image attr roi T d = [(roi, false)] := by
  unfold parallel_image
  rw [if_pos h]

/-- C1: for every non-empty ROI and resolved thread count greater than 1,
the band sub-ROIs handed to the callable by `parallel_image` agree with
the original ROI on every field other than the split axis's begin/end
(including the channel range), jointly cover exactly the pixels of the
original ROI, and are pairwise disjoint: every pixel of the ROI lies in
exactly one scheduled invocation. -/
theorem parallel_image_bands_partition (attr : Int) (roi : ROI) (T : Int) (d : SplitDir)
    (h : 1 < nthreads1 attr roi T) :
    (∀ p ∈ parallel_image attr roi T d, sameOffAxis p.1 roi (splitAxis roi d)) ∧
    (∀ x y z : Int,
      (∃ p ∈ parallel_image attr roi T d, p.1.containsPixel x y z) ↔
        roi.containsPixel x y z) ∧
    (∀ p ∈ parallel_image attr roi T d, ∀ q ∈ parallel_image attr roi T d,
      ∀ x y z : Int, p.1.containsPixel x y z → q.1.containsPixel x y z → p = q) := by
  have hd : splitAxis roi d ≠ SplitDir.Split_Biggest := splitAxis_ne_biggest roi d
  have hbs : 0 < blockSize attr roi T d := blockSize_pos attr roi T d
  have hnb := numBands_le attr roi T d h
  have hsplit : splitLen roi d
      = axisEnd roi (splitAxis roi d) - axisBegin roi (splitAxis roi d) := rfl
  rw [parallel_image_eq_map attr roi T d h]
  refine ⟨?_, ?_, ?_⟩
  · rintro p hp
    rw [List.mem_map] at hp
    obtain ⟨i, hi, rfl⟩ := hp
    exact sameOffAxis_withAxis roi (splitAxis roi d) _ _
  · intro x y z
    constructor
    · rintro ⟨p, hp, hpx⟩
      rw [List.mem_map] at hp
      obtain ⟨i, hi, rfl⟩ := hp
      obtain ⟨hoff, hlo, hhi⟩ :=
        (containsPixel_withAxis roi (splitAxis roi d) hd _ _ x y z).mp hpx
      rw [containsPixel_eq_axis roi (splitAxis roi d) hd x y z]
      refine ⟨hoff, ?_, ?_⟩
      · have hnn : (0:Int) ≤ (i : Int) * blockSize attr roi T d :=
          mul_nonneg (Int.natCast_nonneg i) (le_of_lt hbs)
        linarith
      · have hmin : min (axisBegin roi (splitAxis roi d)
              + (i : Int) * blockSize attr roi T d + blockSize attr roi T d)
            (axisEnd roi (splitAxis roi d)) ≤ axisEnd roi (splitAxis roi d) :=
          min_le_right _ _
        linarith
    · intro hr
      obtain ⟨hoff, hlo, hhi⟩ :=
        (containsPixel_eq_axis roi (splitAxis roi d) hd x y z).mp hr
      have hw0 : 0 ≤ axisCoord (splitAxis roi d) x y z - axisBegin roi (splitAxis roi d) := by
        linarith
      have hq0 : 0 ≤ (axisCoord (splitAxis roi d) x y z
          - axisBegin roi (splitAxis roi d)) / blockSize attr roi T d :=
        Int.ediv_nonneg hw0 (le_of_lt hbs)
      have hic : ((((axisCoord (splitAxis roi d) x y z
            - axisBegin roi (splitAxis roi d)) / blockSize attr roi T d).toNat : Int))
          = (axisCoord (splitAxis roi d) x y z
            - axisBegin roi (splitAxis roi d)) / blockSize attr roi T d :=
        Int.toNat_of_nonneg hq0
      set i : Nat := ((axisCoord (splitAxis roi d) x y z
          - axisBegin roi (splitAxis roi d)) / blockSize attr roi T d).toNat with hidef
      have hdm := Int.ediv_add_emod (axisCoord (splitAxis roi d) x y z
          - axisBegin roi (splitAxis roi d)) (blockSize attr roi T d)
      have hm0 := Int.emod_nonneg (axisCoord (splitAxis roi d) x y z
          - axisBegin roi (splitAxis roi d)) (ne_of_gt hbs)
      have hm1 := Int.emod_lt_of_pos (axisCoord (splitAxis roi d) x y z
          - axisBegin roi (splitAxis roi d)) hbs
      have hlow : (i : Int) * blockSize attr roi T d
          ≤ axisCoord (splitAxis roi d) x y z - axisBegin roi (splitAxis roi d) := by
        rw [hic, mul_comm]; linarith
      have hupp : axisCoord (splitAxis roi d) x y z - axisBegin roi (splitAxis roi d)
          < (i : Int) * blockSize attr roi T d + blockSize attr roi T d := by
        rw [hic, mul_comm]; linarith
      have hlt : (i : Int) * blockSize attr roi T d < splitLen roi d := by
        rw [hsplit]; linarith
      have hqlt := (lt_ceil_iff _ _ _ hbs).mpr hlt
      have hinb : i < numBands attr roi T d := by
        unfold numBands; omega
      refine ⟨(bandROI attr roi T d i, bandFlag attr roi T d i), ?_, ?_⟩
      · rw [List.mem_map]
        exact ⟨i, List.mem_range.mpr hinb, rfl⟩
      · unfold bandROI
        rw [containsPixel_withAxis roi (splitAxis roi d) hd]
        refine ⟨hoff, by linarith, ?_⟩
        rw [lt_min_iff]
        exact ⟨by linarith, hhi⟩
  · rintro p hp q hq x y z hpx hqx
    rw [List.mem_map] at hp hq
    obtain ⟨i, hi, rfl⟩ := hp
    obtain ⟨j, hj, rfl⟩ := hq
    obtain ⟨_, hplo, hphi⟩ :=
      (containsPixel_withAxis roi (splitAxis roi d) hd _ _ x y z).mp hpx
    obtain ⟨_, hqlo, hqhi⟩ :=
      (containsPixel_withAxis roi (splitAxis roi d) hd _ _ x y z).mp hqx
    rw [lt_min_iff] at hphi hqhi
    have h1 : (i : Int) * blockSize attr roi T d
        < ((j : Int) + 1) * blockSize attr roi T d := by
      rw [add_one_mul]
      have := hqhi.1
      linarith
    have h2 := (mul_lt_mul_right hbs).mp h1
    have h3 : (j : Int) * blockSize attr roi T d
        < ((i : Int) + 1) * blockSize attr roi T d := by
      rw [add_one_mul]
      have := hphi.1
      linarith
    have h4 := (mul_lt_mul_right hbs).mp h3
    have hij : i = j := by omega
    subst hij
    rfl

/-- A 1024 x 1024 x 1 region with four channels. -/
def roiBig : ROI := ⟨0, 1024, 0, 1024, 0, 1, 0, 4⟩

/-- A degenerate (empty) region: zero extent in x and y. -/
def roi0 : ROI := ⟨0, 0, 0, 0, 0, 1, 0, 4⟩

/-- A region much wider (16384) than tall (4). -/
def roiWide : ROI := ⟨0, 16384, 0, 4, 0, 1, 0, 3⟩

/-- A region of height 6 whose uniform block size over-covers: splitting
its y extent 6 into 4 threads gives blocksize 2 and only 3 bands. -/
def roiBands : ROI := ⟨0, 16384, 0, 6, 0, 1, 0, 3⟩

theorem parallel_image_bands_partition_witness :
    1 < nthreads1 4 roiBig 8 ∧
    ((∀ p ∈ parallel_image 4 roiBig 8 SplitDir.Split_Y,
        sameOffAxis p.1 roiBig (splitAxis roiBig SplitDir.Split_Y)) ∧
     (∀ x y z : Int,
        (∃ p ∈ parallel_image 4 roiBig 8 SplitDir.Split_Y, p.1.containsPixel x y z) ↔
          roiBig.containsPixel x y z) ∧
     (∀ p ∈ parallel_image 4 roiBig 8 SplitDir.Split_Y,
        ∀ q ∈ parallel_image 4 roiBig 8 SplitDir.Split_Y,
        ∀ x y z : Int, p.1.containsPixel x y z → q.1.containsPixel x y z → p = q)) :=
  ⟨by decide, parallel_image_bands_partition 4 roiBig 8 SplitDir.Split_Y (by decide)⟩

/-- C2 (amended): the thread count `parallel_image` works with equals the
claimed `min(T_or_default, 1 + npixels/16384, split-axis extent)` clamped
below at 1, and at least one invocation of the callable always occurs.
The unclamped minimum itself can be 0 (see the counterexample), so the
claimed plain equality and its "always at least 1" rider fail on empty
ROIs. -/
theorem parallel_image_thread_count_clamped (attr : Int) (roi : ROI) (T : Int) (d : SplitDir) :
    usedThreads attr roi T d =
      max 1 (min (min (resolveThreads attr T) (1 + (roi.npixels : Int) / 16384))
                 (splitLen roi d)) ∧
    1 ≤ (parallel_image attr roi T d).length := by
  by_cases h : nthreads1 attr roi T ≤ 1
  · constructor
    · unfold usedThreads
      rw [if_pos h]
      have h2 : min (min (resolveThreads attr T) (1 + (roi.npixels : Int) / 16384))
          (splitLen roi d) ≤ nthreads1 attr roi T := min_le_left _ _
      exact (max_eq_left (le_trans h2 h)).symm
    · rw [parallel_image_eq_single attr roi T d h]
      simp
  · push_neg at h
    constructor
    · unfold usedThreads
      rw [if_neg (by omega)]
      have h1 : 1 ≤ nthreads2 attr roi T d := nthreads2_pos attr roi T d h
      exact (max_eq_right h1).symm
    · rw [parallel_image_eq_map attr roi T d h]
      have h2 := numBands_pos attr roi T d h
      rw [List.length_map, List.length_range]
      omega

/-- C2: counterexample to the claim as stated.  On the degenerate region
`roi0` (zero pixels, split-axis extent 0) with requested thread count 4,
the claimed formula `min(T_or_default, 1 + floor(P/16384), axis_extent)`
evaluates to 0 — not at least 1 — while `parallel_image` still performs
exactly one invocation (its used thread count is 1). -/
theorem parallel_image_thread_count_claim_cex :
    min (min (resolveThreads 4 4) (1 + (roi0.npixels : Int) / 16384))
        (splitLen roi0 SplitDir.Split_Y) = 0 ∧
    usedThreads 4 roi0 4 SplitDir.Split_Y = 1 ∧
    (parallel_image 4 roi0 4 SplitDir.Split_Y).length = 1 := by decide

/-- C7: whenever the resolved, pixel-density-capped thread count is at
most 1 — in particular for every degenerate/empty ROI, whatever the
requested thread count — `parallel_image` invokes the callable exactly
once, on the unmodified original ROI, synchronously in the calling
thread, spawning no worker threads. -/
theorem parallel_image_single_invocation (attr : Int) (roi : ROI) (T : Int) (d : SplitDir)
    (h : nthreads1 attr roi T ≤ 1) :
    parallel_image attr roi T d = [(roi, false)] :=
  parallel_image_eq_single attr roi T d h

theorem parallel_image_single_invocation_witness :
    nthreads1 16 roi0 7 ≤ 1 ∧
    parallel_image 16 roi0 7 SplitDir.Split_Y = [(roi0, false)] :=
  ⟨by decide, parallel_image_single_invocation 16 roi0 7 SplitDir.Split_Y (by decide)⟩

/-- C4 (amended): the split axis used by `parallel_image` is the longest
edge (x when the ROI is wider than tall, else y) only when the
`Split_Biggest` hint is explicitly passed; the declaration's default hint
is `Split_Y`, under which the split axis is always y, and z is chosen
exactly when `Split_Z` is explicitly requested. -/
theorem split_axis_resolution (roi : ROI) :
    splitAxis roi parallel_image_default_splitdir = SplitDir.Split_Y ∧
    splitAxis roi SplitDir.Split_Biggest
      = (if roi.width > roi.height then SplitDir.Split_X else SplitDir.Split_Y) ∧
    (∀ dd : SplitDir, splitAxis roi dd = SplitDir.Split_Z ↔ dd = SplitDir.Split_Z) := by
  refine ⟨rfl, rfl, ?_⟩
  intro dd
  cases dd
  · simp [splitAxis]
  · simp [splitAxis]
  · simp [splitAxis]
  · simp only [splitAxis]
    split_ifs <;> simp

/-- C4: counterexample to the claim as stated.  Under the default split
hint (`Split_Y`, from the declaration `SplitDir splitdir=Split_Y`), a ROI
wider (16384) than tall (4) is still split along y, not along the longest
edge x: the two bands keep the full x range and partition the y range. -/
theorem split_axis_default_not_longest_edge :
    roiWide.width > roiWide.height ∧
    splitAxis roiWide parallel_image_default_splitdir ≠ SplitDir.Split_X ∧
    (parallel_image 2 roiWide 2 parallel_image_default_splitdir).map
        (fun p => (p.1.xbegin, p.1.xend, p.1.ybegin, p.1.yend))
      = [(0, 16384, 0, 2), (0, 16384, 2, 4)] := by decide

/-- C5 (amended): with resolved thread count N, `parallel_image` spawns
at most N-1 worker threads; a synchronous (calling-thread) invocation, if
any, is always the final scheduled band; when the number of emitted bands
equals N the final band does run synchronously in the calling thread, but
when the uniform block size over-covers and fewer than N bands are
emitted, every band — including the last — runs on a spawned worker and
none runs in the calling thread (so the original claim's "the last band
is always run synchronously" fails; see the counterexample). -/
theorem parallel_image_spawn_bounds (attr : Int) (roi : ROI) (T : Int) (d : SplitDir) :
    ((parallel_image attr roi T d).filter (fun p => p.2)).length
        ≤ (usedThreads attr roi T d - 1).toNat ∧
    (∀ p ∈ parallel_image attr roi T d, p.2 = false →
        (parallel_image attr roi T d).getLast? = some p) ∧
    ((parallel_image attr roi T d).length = (usedThreads attr roi T d).toNat →
        ∃ p, (parallel_image attr roi T d).getLast? = some p ∧ p.2 = false) ∧
    ((parallel_image attr roi T d).length < (usedThreads attr roi T d).toNat →
        ∀ p ∈ parallel_image attr roi T d, p.2 = true) := by
  by_cases h : nthreads1 attr roi T ≤ 1
  · rw [parallel_image_eq_single attr roi T d h]
    have hu : usedThreads attr roi T d = 1 := by
      unfold usedThreads; rw [if_pos h]
    rw [hu]
    refine ⟨by simp, ?_, ?_, ?_⟩
    · rintro p hp hfalse
      simp only [List.mem_singleton] at hp
      subst hp
      rfl
    · intro _
      exact ⟨(roi, false), rfl, rfl⟩
    · intro hlt
      simp at hlt
  · push_neg at h
    have hu : usedThreads attr roi T d = nthreads2 attr roi T d := by
      unfold usedThreads; rw [if_neg (by omega)]
    have hn2 : 1 ≤ nthreads2 attr roi T d := nthreads2_pos attr roi T d h
    have hnb_le := numBands_le attr roi T d h
    have hnb_pos := numBands_pos attr roi T d h
    rw [parallel_image_eq_map attr roi T d h, hu]
    refine ⟨?_, ?_, ?_, ?_⟩
    · have hfm : (((List.range (numBands attr roi T d)).map
            (fun i => (bandROI attr roi T d i, bandFlag attr roi T d i))).filter
              (fun p => p.2))
          = (((List.range (numBands attr roi T d)).filter
              (fun i => bandFlag attr roi T d i)).map
              (fun i => (bandROI attr roi T d i, bandFlag attr roi T d i))) := by
        rw [List.filter_map]
        rfl
      rw [hfm, List.length_map]
      by_cases hcase : numBands attr roi T d ≤ (nthreads2 attr roi T d - 1).toNat
      · exact le_trans (List.length_filter_le _ _) (by rw [List.length_range]; exact hcase)
      · push_neg at hcase
        set a : Nat := (nthreads2 attr roi T d - 1).toNat with ha
        have hk : numBands attr roi T d = a + 1 := by omega
        rw [hk, List.range_succ, List.filter_append, List.length_append]
        have hflag : bandFlag attr roi T d a = false := by
          simp only [bandFlag, decide_eq_false_iff_not]
          omega
        have hsingle : (List.filter (fun i => bandFlag attr roi T d i) [a]).length = 0 := by
          simp [hflag]
        have h3 := List.length_filter_le (fun i => bandFlag attr roi T d i) (List.range a)
        rw [List.length_range] at h3
        omega
    · rintro p hp hfalse
      rw [List.mem_map] at hp
      obtain ⟨i, hi, rfl⟩ := hp
      rw [List.mem_range] at hi
      have hflag : bandFlag attr roi T d i = false := hfalse
      simp only [bandFlag, decide_eq_false_iff_not] at hflag
      have hieq : numBands attr roi T d = i + 1 := by omega
      rw [hieq, List.range_succ, List.map_append]
      simp
    · intro hlen
      rw [List.length_map, List.length_range] at hlen
      obtain ⟨k, hk⟩ : ∃ k, numBands attr roi T d = k + 1 :=
        ⟨numBands attr roi T d - 1, by omega⟩
      refine ⟨(bandROI attr roi T d k, bandFlag attr roi T d k), ?_, ?_⟩
      · rw [hk, List.range_succ, List.map_append]
        simp
      · show bandFlag attr roi T d k = false
        simp only [bandFlag, decide_eq_false_iff_not]
        omega
    · intro hlen p hp
      rw [List.length_map, List.length_range] at hlen
      rw [List.mem_map] at hp
      obtain ⟨i, hi, rfl⟩ := hp
      rw [List.mem_range] at hi
      show bandFlag attr roi T d i = true
      simp only [bandFlag, decide_eq_true_eq]
      omega

/-- C5: counterexample to the claim as stated.  On `roiBands` (y extent 6)
with 4 requested threads the resolved count is 4, blocksize is 2 and only
3 bands are emitted; the loop index never reaches `nthreads-1`, so every
band — including the last one executed — is handed to a spawned worker
thread and no invocation runs synchronously in the calling thread. -/
theorem parallel_image_last_band_spawned_cex :
    usedThreads 4 roiBands 4 SplitDir.Split_Y = 4 ∧
    (parallel_image 4 roiBands 4 SplitDir.Split_Y).map (fun p => p.2)
      = [true, true, true] := by decide

theorem parallel_image_spawn_bounds_witness :
    (parallel_image 4 roiBands 4 SplitDir.Split_Y).length
        < (usedThreads 4 roiBands 4 SplitDir.Split_Y).toNat ∧
    (∀ p ∈ parallel_image 4 roiBands 4 SplitDir.Split_Y, p.2 = true) :=
  ⟨by decide,
   (parallel_image_spawn_bounds 4 roiBands 4 SplitDir.Split_Y).2.2.2 (by decide)⟩

/-! Type dispatch.  `TypeDesc::BASETYPE` is the runtime tag of a pixel
component storage type; `ImageBuf` is the external buffer collaborator,
abstracted to the observations the dispatch macros make of it.  The
dispatch macros expand to `switch` statements over the tag; each is
embedded as a function over an abstract specialization family `func`,
indexed by the concrete component types the C++ template would be
instantiated at. -/

/-- The `TypeDesc::BASETYPE` enumeration (the tags relevant here). -/
inductive BaseType where
  | UNKNOWN
  | NONE
  | UINT8
  | INT8
  | UINT16
  | INT16
  | UINT
  | INT
  | UINT64
  | INT64
  | HALF
  | FLOAT
  | DOUBLE
  | STRING
  | PTR
deriving DecidableEq, Repr

/-- Printable name of a base type, as `TypeDesc` formats it in error
messages. -/
def BaseType.typeName : BaseType → String
  | BaseType.UNKNOWN => "unknown"
  | BaseType.NONE => "none"
  | BaseType.UINT8 => "uint8"
  | BaseType.INT8 => "int8"
  | BaseType.UINT16 => "uint16"
  | BaseType.INT16 => "int16"
  | BaseType.UINT => "uint"
  | BaseType.INT => "int"
  | BaseType.UINT64 => "uint64"
  | BaseType.INT64 => "int64"
  | BaseType.HALF => "half"
  | BaseType.FLOAT => "float"
  | BaseType.DOUBLE => "double"
  | BaseType.STRING => "string"
  | BaseType.PTR => "pointer"

/-- Modelled from the spec: `ImageBuf` is an externally owned container,
treated opaquely except for "is initialized", "has an error state", its
spec (region and pixel storage type) and its pixel storage.  Pixel values
are abstracted to an opaque `Nat` token; a format conversion re-tags the
data and preserves the token. -/
structure ImageBuf where
  initialized : Bool
  basetype : BaseType
  region : ROI
  pixels : Nat
  errmsg : String
deriving DecidableEq, Repr

/-- A default-constructed `ImageBuf` (`ImageBuf Rtmp;`): uninitialized,
no error. -/
def ImageBuf.fresh : ImageBuf :=
  { initialized := false, basetype := BaseType.UNKNOWN,
    region := ⟨0, 0, 0, 0, 0, 0, 0, 0⟩, pixels := 0, errmsg := "" }

/-- Modelled from the spec: `buf.error (msg)` records a textual error on
the container (the sole error-reporting channel). -/
def ImageBuf.error (R : ImageBuf) (msg : String) : ImageBuf :=
  { R with errmsg := msg }

/-- Modelled from the spec: `dst.copy (src, format)` makes `dst` an
initialized copy of `src` whose pixel storage uses the given type
(conversion abstracted as a re-tag); the freshly copied buffer carries no
error. -/
def ImageBuf.copyConvert (src : ImageBuf) (t : BaseType) : ImageBuf :=
  { initialized := true, basetype := t, region := src.region,
    pixels := src.pixels, errmsg := "" }

/-- Modelled from the spec: `dst.copy (src)` copies `src`'s pixels into
`dst`; when `dst` is already initialized its own spec — in particular its
original storage type — is kept and the pixels are converted into it,
otherwise `dst` becomes a clone of `src`. -/
def ImageBuf.copyFrom (R src : ImageBuf) : ImageBuf :=
  if R.initialized then { R with pixels := src.pixels }
  else { initialized := true, basetype := src.basetype, region := src.region,
         pixels := src.pixels, errmsg := R.errmsg }

/-- The error message of the exhaustive dispatch macros:
`(R).error ("%s: Unsupported pixel data format '%s'", name, type)`. -/
def unsupportedMsg (name : String) (t : BaseType) : String :=
  name ++ ": Unsupported pixel data format '" ++ t.typeName ++ "'"

/-- The nine tags with dedicated cases in the exhaustive dispatch macros. -/
def exhaustiveTypes : List BaseType :=
  [BaseType.FLOAT, BaseType.UINT8, BaseType.HALF, BaseType.UINT16, BaseType.INT8,
   BaseType.INT16, BaseType.UINT, BaseType.INT, BaseType.DOUBLE]

/-- The four tags with dedicated cases in the common-type dispatch macros. -/
def commonTypes : List BaseType :=
  [BaseType.FLOAT, BaseType.UINT8, BaseType.HALF, BaseType.UINT16]

/-- `OIIO_DISPATCH_TYPES` (imagebufalgo_util.h, lines 211-234): exhaustive
one-operand dispatch.  `func t R` models `ret = func<T> (R, ...)` for the
concrete type `T` tagged `t`, returning the `ret` flag and the final state
of `R`. -/
def dispatch_types (name : String) (func : BaseType → ImageBuf → Bool × ImageBuf)
    (t : BaseType) (R : ImageBuf) : Bool × ImageBuf :=
  match t with
  | BaseType.FLOAT => func BaseType.FLOAT R
  | BaseType.UINT8 => func BaseType.UINT8 R
  | BaseType.HALF => func BaseType.HALF R
  | BaseType.UINT16 => func BaseType.UINT16 R
  | BaseType.INT8 => func BaseType.INT8 R
  | BaseType.INT16 => func BaseType.INT16 R
  | BaseType.UINT => func BaseType.UINT R
  | BaseType.INT => func BaseType.INT R
  | BaseType.DOUBLE => func BaseType.DOUBLE R
  | _ => (false, R.error (unsupportedMsg name t))

/-- `OIIO_DISPATCH_TYPES2_HELP` (lines 237-260): inner switch of the
exhaustive two-operand dispatch, on the `A` operand's tag. -/
def dispatch_types2_help (name : String)
    (func : BaseType → BaseType → ImageBuf → Bool × ImageBuf)
    (Rt At : BaseType) (R : ImageBuf) : Bool × ImageBuf :=
  match At with
  | BaseType.FLOAT => func Rt BaseType.FLOAT R
  | BaseType.UINT8 => func Rt BaseType.UINT8 R
  | BaseType.HALF => func Rt BaseType.HALF R
  | BaseType.UINT16 => func Rt BaseType.UINT16 R
  | BaseType.INT8 => func Rt BaseType.INT8 R
  | BaseType.INT16 => func Rt BaseType.INT16 R
  | BaseType.UINT => func Rt BaseType.UINT R
  | BaseType.INT => func Rt BaseType.INT R
  | BaseType.DOUBLE => func Rt BaseType.DOUBLE R
  | _ => (false, R.error (unsupportedMsg name At))

/-- `OIIO_DISPATCH_TYPES2` (lines 263-295): exhaustive two-operand
dispatch; outer switch on the result tag, inner on the operand tag. -/
def dispatch_types2 (name : String)
    (func : BaseType → BaseType → ImageBuf → Bool × ImageBuf)
    (Rt At : BaseType) (R : ImageBuf) : Bool × ImageBuf :=
  match Rt with
  | BaseType.FLOAT => dispatch_types2_help name func BaseType.FLOAT At R
  | BaseType.UINT8 => dispatch_types2_help name func BaseType.UINT8 At R
  | BaseType.HALF => dispatch_types2_help name func BaseType.HALF At R
  | BaseType.UINT16 => dispatch_types2_help name func BaseType.UINT16 At R
  | BaseType.INT8 => dispatch_types2_help name func BaseType.INT8 At R
  | BaseType.INT16 => dispatch_types2_help name func BaseType.INT16 At R
  | BaseType.UINT => dispatch_types2_help name func BaseType.UINT At R
  | BaseType.INT => dispatch_types2_help name func BaseType.INT At R
  | BaseType.DOUBLE => dispatch_types2_help name func BaseType.DOUBLE At R
  | _ => (false, R.error (unsupportedMsg name Rt))

/-- `OIIO_DISPATCH_COMMON_TYPES` (lines 300-321): one-operand common-type
dispatch.  An unlisted tag takes the fallback: a fresh `Rtmp` receives a
float copy of `R` only when `R` is initialized, the float specialization
runs on `Rtmp`, and on success `R` copies `Rtmp` back (converting into its
own storage type) while on failure `Rtmp`'s recorded error is copied onto
`R`. -/
def dispatch_common_types (name : String)
    (func : BaseType → ImageBuf → Bool × ImageBuf)
    (t : BaseType) (R : ImageBuf) : Bool × ImageBuf :=
  match t with
  | BaseType.FLOAT => func BaseType.FLOAT R
  | BaseType.UINT8 => func BaseType.UINT8 R
  | BaseType.HALF => func BaseType.HALF R
  | BaseType.UINT16 => func BaseType.UINT16 R
  | _ =>
    let Rtmp := if R.initialized then R.copyConvert BaseType.FLOAT else ImageBuf.fresh
    let res := func BaseType.FLOAT Rtmp
    if res.1 then (true, R.copyFrom res.2) else (false, R.error res.2.errmsg)

/-- `OIIO_DISPATCH_COMMON_TYPES2_HELP` (lines 324-340): inner switch of
the two-operand common-type dispatch, on the `A` operand's tag; an
unlisted tag converts `A` to a float temporary (`Atmp.copy (A, FLOAT)`)
and runs the float specialization on it. -/
def dispatch_common_types2_help
    (func : BaseType → BaseType → ImageBuf → ImageBuf → Bool × ImageBuf)
    (Rt At : BaseType) (R A : ImageBuf) : Bool × ImageBuf :=
  match At with
  | BaseType.FLOAT => func Rt BaseType.FLOAT R A
  | BaseType.UINT8 => func Rt BaseType.UINT8 R A
  | BaseType.HALF => func Rt BaseType.HALF R A
  | BaseType.UINT16 => func Rt BaseType.UINT16 R A
  | _ => func Rt BaseType.FLOAT R (A.copyConvert BaseType.FLOAT)

/-- `OIIO_DISPATCH_COMMON_TYPES2` (lines 344-369): two-operand common-type
dispatch; for an unlisted destination tag the helper is invoked with the
float temporary `Rtmp` in place of `R`, and the result is copied back /
the error forwarded exactly as in the one-operand macro. -/
def dispatch_common_types2 (name : String)
    (func : BaseType → BaseType → ImageBuf → ImageBuf → Bool × ImageBuf)
    (Rt At : BaseType) (R A : ImageBuf) : Bool × ImageBuf :=
  match Rt with
  | BaseType.FLOAT => dispatch_common_types2_help func BaseType.FLOAT At R A
  | BaseType.UINT8 => dispatch_common_types2_help func BaseType.UINT8 At R A
  | BaseType.HALF => dispatch_common_types2_help func BaseType.HALF At R A
  | BaseType.UINT16 => dispatch_common_types2_help func BaseType.UINT16 At R A
  | _ =>
    let Rtmp := if R.initialized then R.copyConvert BaseType.FLOAT else ImageBuf.fresh
    let res := dispatch_common_types2_help func BaseType.FLOAT At Rtmp A
    if res.1 then (true, R.copyFrom res.2) else (false, R.error res.2.errmsg)

/-- `OIIO_DISPATCH_COMMON_TYPES3_HELP2` (lines 373-394): destination-axis
switch of the three-operand common-type dispatch, embedded exactly as
written.  Note the default branch of the source passes the ORIGINAL `R`
to `func` (not the float temporary `Rtmp`), then on success copies the
stale `Rtmp` into `R` and on failure reports `Rtmp.geterror()` (which is
empty, since nothing ever ran on `Rtmp`). -/
def dispatch_common_types3_help2
    (func : BaseType → BaseType → BaseType → ImageBuf → ImageBuf → ImageBuf → Bool × ImageBuf)
    (Rt At Bt : BaseType) (R A B : ImageBuf) : Bool × ImageBuf :=
  match Rt with
  | BaseType.FLOAT => func BaseType.FLOAT At Bt R A B
  | BaseType.UINT8 => func BaseType.UINT8 At Bt R A B
  | BaseType.HALF => func BaseType.HALF At Bt R A B
  | BaseType.UINT16 => func BaseType.UINT16 At Bt R A B
  | _ =>
    let Rtmp := if R.initialized then R.copyConvert BaseType.FLOAT else ImageBuf.fresh
    let res := func BaseType.FLOAT At Bt R A B
    if res.1 then (true, res.2.copyFrom Rtmp) else (false, res.2.error Rtmp.errmsg)

/-- C6: exhaustive dispatch routes each of the nine explicitly supported
tags (FLOAT, UINT8, HALF, UINT16, INT8, INT16, UINT, INT, DOUBLE) to the
matching specialization, passing the operands through unchanged with no
numeric conversion; any unsupported tag performs no specialization,
reports failure (`ret = false`) and records on the destination the error
message naming the operation and the unsupported format — in the nested
two-operand form an unsupported result tag is reported by the outer
switch and an unsupported operand tag by the inner one. -/
theorem dispatch_types_exhaustive :
    (∀ t ∈ exhaustiveTypes, ∀ (name : String)
        (func : BaseType → ImageBuf → Bool × ImageBuf) (R : ImageBuf),
        dispatch_types name func t R = func t R) ∧
    (∀ t : BaseType, t ∉ exhaustiveTypes → ∀ (name : String)
        (func : BaseType → ImageBuf → Bool × ImageBuf) (R : ImageBuf),
        dispatch_types name func t R = (false, R.error (unsupportedMsg name t))) ∧
    (∀ Rt ∈ exhaustiveTypes, ∀ At ∈ exhaustiveTypes, ∀ (name : String)
        (func2 : BaseType → BaseType → ImageBuf → Bool × ImageBuf) (R : ImageBuf),
        dispatch_types2 name func2 Rt At R = func2 Rt At R) ∧
    (∀ Rt : BaseType, Rt ∉ exhaustiveTypes → ∀ (At : BaseType) (name : String)
        (func2 : BaseType → BaseType → ImageBuf → Bool × ImageBuf) (R : ImageBuf),
        dispatch_types2 name func2 Rt At R = (false, R.error (unsupportedMsg name Rt))) ∧
    (∀ Rt ∈ exhaustiveTypes, ∀ At : BaseType, At ∉ exhaustiveTypes → ∀ (name : String)
        (func2 : BaseType → BaseType → ImageBuf → Bool × ImageBuf) (R : ImageBuf),
        dispatch_types2 name func2 Rt At R = (false, R.error (unsupportedMsg name At))) := by
  refine ⟨?_, ?_, ?_, ?_, ?_⟩
  · intro t ht name func R
    fin_cases ht <;> rfl
  · intro t ht name func R
    cases t <;> first | exact absurd (by decide) ht | rfl
  · intro Rt hRt At hAt name func2 R
    fin_cases hRt <;> fin_cases hAt <;> rfl
  · intro Rt hRt At name func2 R
    cases Rt <;> first | exact absurd (by decide) hRt | rfl
  · intro Rt hRt At hAt name func2 R
    fin_cases hRt <;> (cases At <;> first | exact absurd (by decide) hAt | rfl)

/-- A small initialized buffer used as concrete input of witnesses. -/
def wroi : ROI := ⟨0, 2, 0, 2, 0, 1, 0, 3⟩

def wR : ImageBuf :=
  { initialized := true, basetype := BaseType.INT16, region := wroi, pixels := 5, errmsg := "" }

def wA : ImageBuf :=
  { initialized := true, basetype := BaseType.FLOAT, region := wroi, pixels := 3, errmsg := "" }

def wfunc : BaseType → ImageBuf → Bool × ImageBuf :=
  fun t R => (true, { R with pixels := R.pixels + 1 })

def wfunc2 : BaseType → BaseType → ImageBuf → Bool × ImageBuf :=
  fun Rt At R => (true, { R with pixels := R.pixels + 2 })

theorem dispatch_types_exhaustive_witness :
    BaseType.INT16 ∈ exhaustiveTypes ∧
    dispatch_types "op" wfunc BaseType.INT16 wR = wfunc BaseType.INT16 wR ∧
    BaseType.UINT64 ∉ exhaustiveTypes ∧
    dispatch_types "op" wfunc BaseType.UINT64 wR
      = (false, wR.error (unsupportedMsg "op" BaseType.UINT64)) ∧
    dispatch_types2 "op" wfunc2 BaseType.FLOAT BaseType.UINT64 wR
      = (false, wR.error (unsupportedMsg "op" BaseType.UINT64)) :=
  ⟨by decide,
   dispatch_types_exhaustive.1 BaseType.INT16 (by decide) "op" wfunc wR,
   by decide,
   dispatch_types_exhaustive.2.1 BaseType.UINT64 (by decide) "op" wfunc wR,
   dispatch_types_exhaustive.2.2.2.2 BaseType.FLOAT (by decide) BaseType.UINT64
     (by decide) "op" wfunc2 wR⟩

/-- C10: in common-type dispatch with an unsupported destination tag, an
uninitialized destination is accepted: the pre-conversion copy into the
float temporary is skipped (the float specialization receives the fresh,
uninitialized temporary), the returned flag is exactly the float
specialization's — so an uninitialized destination never by itself makes
the fallback fail — and on success the destination receives the
temporary's contents via the copy-back.  Shown for both the one-operand
and the two-operand macro. -/
theorem dispatch_common_uninitialized_dest (name : String)
    (func : BaseType → ImageBuf → Bool × ImageBuf)
    (func2 : BaseType → BaseType → ImageBuf → ImageBuf → Bool × ImageBuf)
    (t At : BaseType) (R A : ImageBuf)
    (ht : t ∉ commonTypes) (hR : R.initialized = false) :
    (dispatch_common_types name func t R).1 = (func BaseType.FLOAT ImageBuf.fresh).1 ∧
    ((func BaseType.FLOAT ImageBuf.fresh).1 = true →
      (dispatch_common_types name func t R).2
        = R.copyFrom (func BaseType.FLOAT ImageBuf.fresh).2) ∧
    (dispatch_common_types2 name func2 t At R A).1
      = (dispatch_common_types2_help func2 BaseType.FLOAT At ImageBuf.fresh A).1 ∧
    ((dispatch_common_types2_help func2 BaseType.FLOAT At ImageBuf.fresh A).1 = true →
      (dispatch_common_types2 name func2 t At R A).2
        = R.copyFrom (dispatch_common_types2_help func2 BaseType.FLOAT At ImageBuf.fresh A).2) := by
  cases t <;> try exact absurd (by decide) ht
  all_goals
    dsimp only [dispatch_common_types, dispatch_common_types2]
    rw [hR]
    rw [if_neg Bool.false_ne_true]
    refine ⟨?_, ?_, ?_, ?_⟩
    · cases hres : (func BaseType.FLOAT ImageBuf.fresh).1 <;> simp [hres]
    · intro htrue
      rw [if_pos htrue]
    · cases hres : (dispatch_common_types2_help func2 BaseType.FLOAT At ImageBuf.fresh A).1 <;>
        simp [hres]
    · intro htrue
      rw [if_pos htrue]

def wcfunc2 : BaseType → BaseType → ImageBuf → ImageBuf → Bool × ImageBuf :=
  fun Rt At R A => (true, { R with pixels := R.pixels + A.pixels })

theorem dispatch_common_uninitialized_dest_witness :
    BaseType.DOUBLE ∉ commonTypes ∧
    ImageBuf.fresh.initialized = false ∧
    ((dispatch_common_types "op" wfunc BaseType.DOUBLE ImageBuf.fresh).1
        = (wfunc BaseType.FLOAT ImageBuf.fresh).1 ∧
     ((wfunc BaseType.FLOAT ImageBuf.fresh).1 = true →
       (dispatch_common_types "op" wfunc BaseType.DOUBLE ImageBuf.fresh).2
         = ImageBuf.fresh.copyFrom (wfunc BaseType.FLOAT ImageBuf.fresh).2) ∧
     (dispatch_common_types2 "op" wcfunc2 BaseType.DOUBLE BaseType.FLOAT ImageBuf.fresh wA).1
       = (dispatch_common_types2_help wcfunc2 BaseType.FLOAT BaseType.FLOAT ImageBuf.fresh wA).1 ∧
     ((dispatch_common_types2_help wcfunc2 BaseType.FLOAT BaseType.FLOAT ImageBuf.fresh wA).1 = true →
       (dispatch_common_types2 "op" wcfunc2 BaseType.DOUBLE BaseType.FLOAT ImageBuf.fresh wA).2
         = ImageBuf.fresh.copyFrom
             (dispatch_common_types2_help wcfunc2 BaseType.FLOAT BaseType.FLOAT ImageBuf.fresh wA).2)) :=
  ⟨by decide, rfl,
   dispatch_common_uninitialized_dest "op" wfunc wcfunc2 BaseType.DOUBLE BaseType.FLOAT
     ImageBuf.fresh wA (by decide) rfl⟩

/-- A destination buffer of unsupported (for common-type dispatch) storage
type DOUBLE. -/
def Rd : ImageBuf :=
  { initialized := true, basetype := BaseType.DOUBLE, region := wroi, pixels := 7, errmsg := "" }

def wB : ImageBuf :=
  { initialized := true, basetype := BaseType.FLOAT, region := wroi, pixels := 4, errmsg := "" }

/-- A three-operand specialization that fails, recording an error on its
destination. -/
def func3fail : BaseType → BaseType → BaseType → ImageBuf → ImageBuf → ImageBuf →
    Bool × ImageBuf :=
  fun Rt At Bt R A B => (false, R.error "float specialization failed")

/-- A three-operand specialization that succeeds, writing pixel token 99
into its destination. -/
def func3succ : BaseType → BaseType → BaseType → ImageBuf → ImageBuf → ImageBuf →
    Bool × ImageBuf :=
  fun Rt At Bt R A B => (true, { R with pixels := 99 })

/-- C3: evidence that the three-operand common-type fallback of
`OIIO_DISPATCH_COMMON_TYPES3_HELP2` is broken for an unsupported
destination type (here DOUBLE).  The claim (and the macro's own comment
"punt and convert to float, then copy back", matching the sibling macros
which pass `Rtmp` to `func`) requires the float specialization to run on
the float temporary, the destination to receive its result on success,
and its recorded error to be propagated verbatim on failure.  The code
instead runs `func` on the original `R`: (1) on failure the destination's
error is `Rtmp.geterror()` — the empty string, not the specialization's
"float specialization failed"; (2) on success the destination's pixels
are overwritten with the stale pre-run temporary (token 7), not the
specialization's result (token 99), which running on the converted
temporary would have produced (conjuncts 3 and 4 evaluate the intended
behaviour for contrast). -/
theorem dispatch_common_types3_dest_fallback_bug :
    (dispatch_common_types3_help2 func3fail BaseType.DOUBLE BaseType.FLOAT BaseType.FLOAT
        Rd wA wB).2.errmsg = "" ∧
    (dispatch_common_types3_help2 func3succ BaseType.DOUBLE BaseType.FLOAT BaseType.FLOAT
        Rd wA wB).2.pixels = 7 ∧
    (func3succ BaseType.FLOAT BaseType.FLOAT BaseType.FLOAT (Rd.copyConvert BaseType.FLOAT)
        wA wB).2.pixels = 99 ∧
    (func3fail BaseType.FLOAT BaseType.FLOAT BaseType.FLOAT (Rd.copyConvert BaseType.FLOAT)
        wA wB).2.errmsg = "float specialization failed" := by decide

/-- Modelled from the spec: the two-argument `type_merge` is declared in
this header (line 191) but defined in imagebufalgo.cpp, which is not
among these sources.  Per the spec it maps two type descriptors to "the
narrowest descriptor capable of representing both without loss of range
or precision" (an 8-bit and a 16-bit integer type merge to the 16-bit
type; any integer merged with a floating type merges toward a floating
type of at least equal precision), and the pairwise rule is required to
make the merge associative and commutative.  The model realizes this as
the join of a promotion lattice over the supported numeric tags, given
here by each tag's set of lossless supertypes; where "narrowest" is
ambiguous (mixed-signedness pairs that fit equally well in a wider
integer or a float) ties are resolved toward the floating chain so that
the rule is a join-semilattice, as the spec's associativity guarantee
requires. -/
def typeUB : BaseType → List BaseType
  | BaseType.UNKNOWN =>
      [BaseType.UNKNOWN, BaseType.UINT8, BaseType.INT8, BaseType.UINT16, BaseType.INT16,
       BaseType.HALF, BaseType.UINT, BaseType.INT, BaseType.FLOAT, BaseType.DOUBLE]
  | BaseType.UINT8 =>
      [BaseType.UINT8, BaseType.UINT16, BaseType.INT16, BaseType.UINT, BaseType.INT,
       BaseType.FLOAT, BaseType.DOUBLE]
  | BaseType.INT8 =>
      [BaseType.INT8, BaseType.INT16, BaseType.INT, BaseType.FLOAT, BaseType.DOUBLE]
  | BaseType.UINT16 => [BaseType.UINT16, BaseType.UINT, BaseType.FLOAT, BaseType.DOUBLE]
  | BaseType.INT16 => [BaseType.INT16, BaseType.INT, BaseType.FLOAT, BaseType.DOUBLE]
  | BaseType.UINT => [BaseType.UINT, BaseType.DOUBLE]
  | BaseType.INT => [BaseType.INT, BaseType.DOUBLE]
  | BaseType.HALF => [BaseType.HALF, BaseType.FLOAT, BaseType.DOUBLE]
  | BaseType.FLOAT => [BaseType.FLOAT, BaseType.DOUBLE]
  | BaseType.DOUBLE => [BaseType.DOUBLE]
  | t => [t]

/-- The promotion order: `typeLE a b` holds when `b` can represent every
value of `a` without loss (as fixed by `typeUB`). -/
def typeLE (a b : BaseType) : Bool := decide (b ∈ typeUB a)

/-- The supported numeric tags, listed from narrowest to widest (a linear
extension of the promotion order). -/
def mergeRank : List BaseType :=
  [BaseType.UNKNOWN, BaseType.UINT8, BaseType.INT8, BaseType.UINT16, BaseType.INT16,
   BaseType.HALF, BaseType.UINT, BaseType.INT, BaseType.FLOAT, BaseType.DOUBLE]

/-- Modelled from the spec (see `typeUB`): the merge of two tags is the
narrowest tag losslessly representing both; out of the supported domain
the model punts to FLOAT, matching the dispatch fallback's default
floating type. -/
def type_merge (a b : BaseType) : BaseType :=
  match mergeRank.find? (fun c => typeLE a c && typeLE b c) with
  | some c => c
  | none => BaseType.FLOAT

/-- The three-argument overload, from the header (lines 193-197): the
two-way merge applied twice, left-associatively. -/
def type_merge3 (a b c : BaseType) : BaseType := type_merge (type_merge a b) c

/-- C8: over the supported type descriptors, `type_merge` is commutative
and associative, and the three-way merge equals the two-way merge applied
twice left-associatively (the latter directly from the header's inline
definition). -/
theorem type_merge_comm_assoc (a b c : BaseType)
    (ha : a ∈ mergeRank) (hb : b ∈ mergeRank) (hc : c ∈ mergeRank) :
    type_merge a b = type_merge b a ∧
    type_merge (type_merge a b) c = type_merge a (type_merge b c) ∧
    type_merge3 a b c = type_merge (type_merge a b) c := by
  have H : ∀ x ∈ mergeRank, ∀ y ∈ mergeRank, ∀ z ∈ mergeRank,
      type_merge x y = type_merge y x ∧
      type_merge (type_merge x y) z = type_merge x (type_merge y z) ∧
      type_merge3 x y z = type_merge (type_merge x y) z := by decide
  exact H a ha b hb c hc

theorem type_merge_comm_assoc_witness :
    BaseType.UINT8 ∈ mergeRank ∧ BaseType.INT16 ∈ mergeRank ∧ BaseType.HALF ∈ mergeRank ∧
    (type_merge BaseType.UINT8 BaseType.INT16 = type_merge BaseType.INT16 BaseType.UINT8 ∧
     type_merge (type_merge BaseType.UINT8 BaseType.INT16) BaseType.HALF
       = type_merge BaseType.UINT8 (type_merge BaseType.INT16 BaseType.HALF) ∧
     type_merge3 BaseType.UINT8 BaseType.INT16 BaseType.HALF
       = type_merge (type_merge BaseType.UINT8 BaseType.INT16) BaseType.HALF) :=
  ⟨by decide, by decide, by decide,
   type_merge_comm_assoc BaseType.UINT8 BaseType.INT16 BaseType.HALF
     (by decide) (by decide) (by decide)⟩

/-- Union of two ROIs (per-axis hull), used when deriving a fresh
destination's region from the sources. -/
def ROI.union (a b : ROI) : ROI :=
  ⟨min a.xbegin b.xbegin, max a.xend b.xend, min a.ybegin b.ybegin, max a.yend b.yend,
   min a.zbegin b.zbegin, max a.zend b.zend, min a.chbegin b.chbegin, max a.chend b.chend⟩

/-- The `ROI::All()` sentinel requesting "the entire image". -/
def ROI.All : ROI := ⟨0, 0, 0, 0, 0, 0, 0, 0⟩

/-- Whether a supplied input is unusable: present (non-null) but
uninitialized or carrying an error state. -/
def badInput : Option ImageBuf → Bool
  | none => false
  | some b => !b.initialized || !(b.errmsg == "")

/-- Modelled from the spec: `IBAprep` is declared in this header (lines
158-169) but defined in imagebufalgo.cpp, which is not among these
sources.  Per the header's own doc comment ("if A or B inputs are
specified but not initialized or broken, it's an error so return false")
and spec sections 4.2 and 7 ("a source container passed to preparation is
not null but is not ready for use: preparation fails before any
allocation or mutation"), the model validates the supplied sources first
and returns false with the working ROI and the destination untouched when
any is unusable; otherwise it resolves an `All` ROI from the destination
(when initialized) or from the union of the sources' regions, and
allocates an uninitialized destination from the forced spec or the first
source.  The flag-driven structural checks are not needed by the claims
considered and are not modelled. -/
def IBAprep (roi : ROI) (dst : ImageBuf) (A B C : Option ImageBuf)
    (force_spec : Option (ROI × BaseType)) (prepflags : Int) : Bool × ROI × ImageBuf :=
  if badInput A || badInput B || badInput C then (false, roi, dst)
  else
    let srcRegion :=
      match A, B, C with
      | some a, some b, some c => (a.region.union b.region).union c.region
      | some a, some b, none => a.region.union b.region
      | some a, none, _ => a.region
      | none, _, _ => dst.region
    let roi2 := if roi = ROI.All then (if dst.initialized then dst.region else srcRegion) else roi
    let dst2 :=
      if dst.initialized then dst
      else
        match force_spec with
        | some sp =>
          { initialized := true, basetype := sp.2, region := sp.1, pixels := 0, errmsg := "" }
        | none =>
          match A with
          | some a =>
            { initialized := true, basetype := a.basetype, region := srcRegion,
              pixels := 0, errmsg := "" }
          | none =>
            { initialized := true, basetype := BaseType.FLOAT, region := roi2,
              pixels := 0, errmsg := "" }
    (true, roi2, dst2)

/-- C9: when any provided source container is non-null but uninitialized
or carries an error state, `IBAprep` returns false immediately, with the
working ROI and the destination returned untouched — in particular before
any allocation of the destination's storage or any other mutation of the
destination. -/
theorem IBAprep_invalid_source (roi : ROI) (dst : ImageBuf) (A B C : Option ImageBuf)
    (fs : Option (ROI × BaseType)) (flags : Int)
    (h : badInput A = true ∨ badInput B = true ∨ badInput C = true) :
    IBAprep roi dst A B C fs flags = (false, roi, dst) := by
  unfold IBAprep
  rcases h with h | h | h <;> simp [h]

/-- A non-null but uninitialized source container. -/
def badA : ImageBuf :=
  { initialized := false, basetype := BaseType.FLOAT, region := wroi, pixels := 0, errmsg := "" }

theorem IBAprep_invalid_source_witness :
    (badInput (some badA) = true ∨ badInput none = true ∨ badInput none = true) ∧
    IBAprep ROI.All ImageBuf.fresh (some badA) none none none 0
      = (false, ROI.All, ImageBuf.fresh) :=
  ⟨Or.inl (by decide),
   IBAprep_invalid_source ROI.All ImageBuf.fresh (some badA) none none none 0
     (Or.inl (by decide))⟩

end OIIO
